import Mathlib

/-!
Verification of the sharpy `libss.py` state-space algebra engine.

The source represents LTI systems as matrix quadruples (A, B, C, D) plus an
optional sampling interval `dt`, and provides interconnection algorithms
(couple, series, parallel, join2, sum_ss), frequency response evaluation,
discrete-to-continuous conversion and norm computation.

Two embeddings are used, both translated from `sharpy/linear/src/libss.py`:

* a typed embedding (`Sss` over Mathlib matrices) for the pure algebraic
  constructors (`couple`, `series`, `parallel`, `disc2cont`, `freqresp`),
  where numpy shape validity is carried by the index types; the numeric
  scalars are exact (`ℚ`, `ℝ`, `ℂ`) in place of floating point;
* an untyped embedding (`NpArr`, shape list plus entry function) for the
  dynamically-shaped object-level behaviour of the `ss` class (derived
  shape properties, in-place mutation, `join2`/`sum_ss` operand dispatch),
  mirroring numpy's runtime-shape semantics.

The dense path of the matrix backend `libsparse` (not part of the sources
available here) is modelled from the spec, section 4.1: `dot` is the
matrix product, `solve(X, Y)` solves `X·Z = Y` by direct factorisation
(raising on a singular `X`), `eye_as` is the identity of matching size,
`dense` is the identity on dense data.  Python functions that can raise
are embedded as `Except`-valued functions; code that mutates `self` is
embedded as state-passing functions returning the updated object.
-/

open Matrix

/-- Error values for the embedded `libss` routines.  Each constructor
stands for a distinct Python exception site: `dtMismatch` for the
sampling-interval asserts, `singular` for `LinAlgError` raised by a
linear solve / inversion on a singular matrix, `notImplemented` for the
`NameError` raised on the unsupported sparse-output coupling path,
`notDiscrete` for the `disc2cont` assert on a missing `dt`, `divByZero`
for Python float division by a zero `dt`, `assertFail` for the remaining
`AssertionError` sites, `shapeMismatch` for numpy shape errors,
`attrMissing` for `AttributeError`, `notReal` for the `NameError` raised
when a computed norm is not real. -/
inductive LssErr where
  | dtMismatch
  | singular
  | notImplemented
  | notDiscrete
  | divByZero
  | assertFail
  | shapeMismatch
  | attrMissing
  | notReal
  deriving DecidableEq

/-- Typed embedding of the `libss.ss` container: matrices `A : n×n`,
`B : n×m`, `C : p×n`, `D : p×m` over index types `σ` (states), `ι`
(inputs), `ο` (outputs), and the optional sampling interval `dt`
(`none` means a continuous-time system).  The `__init__` shape asserts
of the class are subsumed by the index types; `states`, `inputs` and
`outputs` are the cardinalities of `σ`, `ι`, `ο`. -/
structure Sss (σ ι ο K : Type) where
  A : Matrix σ σ K
  B : Matrix σ ι K
  C : Matrix ο σ K
  D : Matrix ο ι K
  dt : Option ℚ

variable {σ1 σ2 ι1 ι2 ο1 ο2 σ ι ο : Type} {K : Type}

/-- Modelled from the spec: the dense-path matrix inversion used by the
backend (`libsparse` is not among the available sources; spec section
4.1 specifies `solve(X, Y)` as the direct-factorisation solution of
`X·Z = Y`).  In exact arithmetic the direct solve of a nonsingular
system is multiplication by the inverse, written here through the
adjugate so that the definition is executable; it agrees with Mathlib's
`Matrix.inv` (see `sinv_eq_inv`). -/
def sinv {n : Type} [Fintype n] [DecidableEq n] [Field K]
    (M : Matrix n n K) : Matrix n n K :=
  (M.det)⁻¹ • M.adjugate

/-- Modelled from the spec: `solve(X, Y)` of the dense matrix backend,
solving `X·Z = Y` (spec section 4.1).  The singular case, where
`scipy`/`numpy` raise `LinAlgError`, is guarded by determinant tests at
every call site, matching the raise. -/
def solve {n m : Type} [Fintype n] [DecidableEq n] [Field K]
    (X : Matrix n n K) (Y : Matrix n m K) : Matrix n m K :=
  sinv X * Y

/-- `couple(ss01, ss02, K12, K21, out_sparse)` from `libss.py`:
feedback interconnection of two systems through gains `K12` (output of
`ss02` into input of `ss01`) and `K21` (the reverse).  Follows the
source line by line: the sampling-interval assert (relative tolerance
`1e-10`), the self-influence gains `K11`, `K22`, the left-hand sides
`L1 = (-K11)·D1 + I`, `L2 = (-K22)·D2 + I`, the solves for the coupling
terms (raising `LinAlgError` on a singular left-hand side, embedded as
the determinant-zero test), the `NameError` on `out_sparse=True`, and
the four 2×2 block assemblies.  The gain-shape asserts of the source
are subsumed by the index types.  The function is a pure constructor:
the operand systems are read through `get_mats` and never written. -/
def couple [Field K] [DecidableEq K]
    [Fintype σ1] [DecidableEq σ1] [Fintype σ2] [DecidableEq σ2]
    [Fintype ι1] [DecidableEq ι1] [Fintype ι2] [DecidableEq ι2]
    [Fintype ο1] [DecidableEq ο1] [Fintype ο2] [DecidableEq ο2]
    (s1 : Sss σ1 ι1 ο1 K) (s2 : Sss σ2 ι2 ο2 K)
    (K12 : Matrix ι1 ο2 K) (K21 : Matrix ι2 ο1 K) (out_sparse : Bool) :
    Except LssErr (Sss (σ1 ⊕ σ2) (ι1 ⊕ ι2) (ο1 ⊕ ο2) K) :=
  match s1.dt, s2.dt with
  | some d1, some d2 =>
    if |d1 - d2| < 1e-10 * d1 then
      let K11 := K12 * (s2.D * K21)
      let K22 := K21 * (s1.D * K12)
      let L1 := -K11 * s1.D + 1
      let L2 := -K22 * s2.D + 1
      if L1.det = 0 ∨ L2.det = 0 then .error .singular
      else
        let cpl12 := solve L1 K12
        let cpl21 := solve L2 K21
        let cpl11 := cpl12 * (s2.D * K21)
        let cpl22 := cpl21 * (s1.D * K12)
        if out_sparse then .error .notImplemented
        else .ok
          { A := fromBlocks (s1.A + s1.B * cpl11 * s1.C) (s1.B * cpl12 * s2.C)
                            (s2.B * cpl21 * s1.C) (s2.A + s2.B * cpl22 * s2.C)
            B := fromBlocks (s1.B + s1.B * cpl11 * s1.D) (s1.B * cpl12 * s2.D)
                            (s2.B * cpl21 * s1.D) (s2.B + s2.B * cpl22 * s2.D)
            C := fromBlocks (s1.C + s1.D * cpl11 * s1.C) (s1.D * cpl12 * s2.C)
                            (s2.D * cpl21 * s1.C) (s2.C + s2.D * cpl22 * s2.C)
            D := fromBlocks (s1.D + s1.D * cpl11 * s1.D) (s1.D * cpl12 * s2.D)
                            (s2.D * cpl21 * s1.D) (s2.D + s2.D * cpl22 * s2.D)
            dt := s1.dt }
    else .error .dtMismatch
  | _, _ => .error .dtMismatch

/-- The standalone `disc2cont(sys)` from `libss.py`: bilinear (Tustin)
transform of a discrete-time system.  Follows the source order: the
assert that `dt` is present, the inversion of `A + I` (numpy
`LinAlgError` on a singular matrix, embedded as the determinant-zero
test), the Python float division `2 / dt`, then
`a = ω₀ (A - I)(A + I)⁻¹`, `b = √(2ω₀) (A + I)⁻¹ B`,
`c = √(2ω₀) C (A + I)⁻¹`, `d = D - C (A + I)⁻¹ B`, returned with no
`dt` (continuous time). -/
noncomputable def disc2cont [Fintype σ] [DecidableEq σ]
    (sys : Sss σ ι ο ℝ) : Except LssErr (Sss σ ι ο ℝ) :=
  match sys.dt with
  | none => .error .notDiscrete
  | some dtq =>
    if (sys.A + 1).det = 0 then .error .singular
    else if dtq = 0 then .error .divByZero
    else
      let einv := sinv (sys.A + 1)
      let om : ℝ := 2 / (dtq : ℝ)
      .ok { A := om • ((sys.A - 1) * einv)
            B := Real.sqrt (2 * om) • (einv * sys.B)
            C := Real.sqrt (2 * om) • (sys.C * einv)
            D := sys.D - sys.C * (einv * sys.B)
            dt := none }

/-- The instance method `ss.disc2cont` from `libss.py`:

    if self.dt:
        self = disc2cont(self)

The call computes the converted system (so a raise inside the standalone
`disc2cont` propagates) but only rebinds the local name `self`; the
instance is never written and the method returns `None` (embedded as
`Unit`).  The Python truthiness test skips the body both for `dt = None`
and for `dt = 0`. -/
noncomputable def ssMethodDisc2cont [Fintype σ] [DecidableEq σ]
    (s : Sss σ ι ο ℝ) : Except LssErr Unit × Sss σ ι ο ℝ :=
  match s.dt with
  | none => (.ok (), s)
  | some d =>
    if d = 0 then (.ok (), s)
    else
      match disc2cont s with
      | .ok _ => (.ok (), s)
      | .error e => (.error e, s)

/-- The evaluation point used by `freqresp(SS, wv)` in `libss.py` for a
single frequency `w`: `z = cos(dt·w) + i·sin(dt·w)` for a discrete
system, `z = i·w` for a continuous one (the `dlti` flag of the source
is supplied from `dt`, as done by the `ss.freqresp` wrapper). -/
noncomputable def zOf (dt : Option ℚ) (w : ℝ) : ℂ :=
  match dt with
  | some ts => (Real.cos ((ts : ℝ) * w) : ℂ) + Complex.I * (Real.sin ((ts : ℝ) * w) : ℂ)
  | none => Complex.I * (w : ℂ)

/-- `freqresp(SS, wv)` from `libss.py` at one frequency `w`: solve
`(z·I - A)·X = B` and return `C·X + D`.  The source loops this over the
frequency array; the embedding gives the slice at one frequency.  The
linear solve requires `z·I - A` nonsingular (the source raises
otherwise); the embedding uses the Mathlib matrix inverse, which the
theorems guard with a nonsingularity hypothesis. -/
noncomputable def freqresp [Fintype σ] [DecidableEq σ]
    (SS : Sss σ ι ο ℂ) (w : ℝ) : Matrix ο ι ℂ :=
  SS.C * solve (zOf SS.dt w • (1 : Matrix σ σ ℂ) - SS.A) SS.B + SS.D

/-- `series(SS01, SS02)` from `libss.py`: cascade connection, the output
of `SS01` feeding the input of `SS02`.  The source raises `NameError`
when the time steps differ (exact comparison); the embedding's shared
output/input index type `ο1` carries the dimensional compatibility.
Blocks as in the source: `A = [[A1, 0], [B2·C1, A2]]`,
`B = [B1; B2·D1]`, `C = [D2·C1, C2]`, `D = D2·D1`, with `dt = SS01.dt`. -/
def series [Fintype σ1] [Fintype σ2] [Fintype ο1] [NonUnitalNonAssocSemiring K]
    (s1 : Sss σ1 ι ο1 K) (s2 : Sss σ2 ο1 ο2 K) :
    Except LssErr (Sss (σ1 ⊕ σ2) ι ο2 K) :=
  if s1.dt = s2.dt then
    .ok { A := fromBlocks s1.A 0 (s2.B * s1.C) s2.A
          B := fromRows s1.B (s2.B * s1.D)
          C := fromColumns (s2.D * s1.C) s2.C
          D := s2.D * s1.D
          dt := s1.dt }
  else .error .dtMismatch

/-- `parallel(SS01, SS02)` from `libss.py`: two systems with the same
number of outputs (carried here by the shared index type `ο`), states
and inputs block-diagonal, `C` and `D` row-concatenated, so the outputs
sum.  The source raises `NameError` on differing time steps (exact
comparison) or output counts, and wraps the result in a
`scipy.signal.dlti` container; the embedding returns the same
matrices and `dt` in the uniform `Sss` record. -/
def parallel (s1 : Sss σ1 ι1 ο K) (s2 : Sss σ2 ι2 ο K) [Zero K] :
    Except LssErr (Sss (σ1 ⊕ σ2) (ι1 ⊕ ι2) ο K) :=
  if s1.dt = s2.dt then
    .ok { A := fromBlocks s1.A 0 0 s2.A
          B := fromBlocks s1.B 0 0 s2.B
          C := fromColumns s1.C s2.C
          D := fromColumns s1.D s2.D
          dt := s1.dt }
  else .error .dtMismatch

/-! ## Untyped ndarray world

The `ss` class determines `states`/`inputs`/`outputs` from the runtime
shapes of its matrices, and numpy arrays change shape under the in-place
operations, so the object-level behaviour is embedded over an untyped
array: a numpy shape tuple plus an entry function.  A 1-d array stores
its value at column index 0.  Entries at indices outside the shape are
never observed (array equality in the theorems is up to the shape). -/

/-- An untyped numpy ndarray: shape tuple and entries (exact rationals
in place of floats). -/
structure NpArr where
  shape : List ℕ
  ent : ℕ → ℕ → ℚ

/-- Modelled from the spec: the generalized product `dot(X, Y)` of the
dense matrix backend (spec section 4.1; `libsparse` is not among the
available sources), which "handles vector-shaped operands" as numpy
`dot` does: matrix-matrix, vector-matrix, matrix-vector, vector-vector.
`none` stands for the `ValueError` numpy raises on incompatible ranks
or inner dimensions. -/
def npdot (x y : NpArr) : Option NpArr :=
  match x.shape, y.shape with
  | [r, c], [c2, k] =>
    if c = c2 then some ⟨[r, k], fun i j => ∑ t ∈ Finset.range c, x.ent i t * y.ent t j⟩
    else none
  | [n], [n2, k] =>
    if n = n2 then some ⟨[k], fun j _ => ∑ t ∈ Finset.range n, x.ent t 0 * y.ent t j⟩
    else none
  | [r, c], [c2] =>
    if c = c2 then some ⟨[r], fun i _ => ∑ t ∈ Finset.range c, x.ent i t * y.ent t 0⟩
    else none
  | [n], [n2] =>
    if n = n2 then some ⟨[], fun _ _ => ∑ t ∈ Finset.range n, x.ent t 0 * y.ent t 0⟩
    else none
  | _, _ => none

/-- numpy transpose `.T`: swaps the axes of a 2-d array and leaves a
1-d array unchanged. -/
def npT (a : NpArr) : NpArr :=
  match a.shape with
  | [r, c] => ⟨[c, r], fun i j => a.ent j i⟩
  | other => ⟨other, a.ent⟩

/-- The `libss.ss` object state: the four matrices, the optional time
step, and the private backing stores `_states`, `_inputs`, `_outputs`
of the three shape properties (the properties write them on every read;
nothing else reads them). -/
structure SSObj where
  A : NpArr
  B : NpArr
  C : NpArr
  D : NpArr
  dt : Option ℚ
  cstates : ℕ
  cinputs : ℕ
  coutputs : ℕ

/-- The `ss.states` property: assigns `self._states = self.A.shape[0]`
through the setter and returns the freshly written backing store. -/
def statesProp (s : SSObj) : ℕ × SSObj :=
  let v := s.A.shape.headD 0
  (v, { s with cstates := v })

/-- The `ss.inputs` property: 1 for a one-dimensional `B`, else
`B.shape[1]`, written to `self._inputs` and returned. -/
def inputsProp (s : SSObj) : ℕ × SSObj :=
  if s.B.shape.length = 1 then (1, { s with cinputs := 1 })
  else
    let v := s.B.shape.getD 1 0
    (v, { s with cinputs := v })

/-- The `ss.outputs` property: `C.shape[0]`, written to
`self._outputs` and returned. -/
def outputsProp (s : SSObj) : ℕ × SSObj :=
  let v := s.C.shape.headD 0
  (v, { s with coutputs := v })

/-- `ss.__init__(A, B, C, D, dt)`: stores the matrices and `dt`,
derives `states`/`inputs`/`outputs` from `B` and `C` (a 1-d `B` means
a single-input system), then asserts `A.shape == (states, states)`,
`C.shape[1] == states`, `D.shape[0] == outputs` and
`D.shape[1] == inputs` (with the `IndexError` fallback
`inputs == 1` for a 1-d `D`).  A failed assert is an
`AssertionError`: no object is produced.  `check_types` (membership of
the matrices in the supported dense/sparse representations) holds by
construction here, every `NpArr` being a dense array. -/
def mkSS (A B C D : NpArr) (dt : Option ℚ) : Except LssErr SSObj :=
  let dims : Option (ℕ × ℕ) :=
    match B.shape with
    | [n] => some (n, 1)
    | [n, m] => some (n, m)
    | _ => none
  match dims with
  | none => .error .shapeMismatch
  | some (st, inp) =>
    let outp := C.shape.headD 0
    if A.shape = [st, st] ∧ C.shape.getD 1 0 = st ∧ D.shape.headD 0 = outp ∧
        (if 2 ≤ D.shape.length then D.shape.getD 1 0 = inp else inp = 1) then
      .ok ⟨A, B, C, D, dt, st, inp, outp⟩
    else .error .assertFail

/-- The `where` argument of `addGain`/`remove_inout_channels`: the
source asserts membership in `['in', 'out']`, subsumed here by the
closed type. -/
inductive Where where
  | inp
  | out
  deriving DecidableEq

/-- `ss.addGain(K, where)`: `where='in'` replaces `B ← B·K`,
`D ← D·K`; `where='out'` replaces `C ← K·C`, `D ← K·D`.  The
assignments happen in order, so a shape error on the second product
leaves the first matrix already overwritten (the pair returns the
object state at the time of the raise). -/
def addGainObj (s : SSObj) (Kg : NpArr) (w : Where) : SSObj × Option LssErr :=
  match w with
  | .inp =>
    match npdot s.B Kg with
    | none => (s, some .shapeMismatch)
    | some B2 =>
      match npdot s.D Kg with
      | none => ({ s with B := B2 }, some .shapeMismatch)
      | some D2 => ({ s with B := B2, D := D2 }, none)
  | .out =>
    match npdot Kg s.C with
    | none => (s, some .shapeMismatch)
    | some C2 =>
      match npdot Kg s.D with
      | none => ({ s with C := C2 }, some .shapeMismatch)
      | some D2 => ({ s with C := C2, D := D2 }, none)

/-- A scaling argument of `scale_SS`: a Python float (broadcast to every
channel) or a list/array (whose length must match the channel count). -/
inductive ScaleArg where
  | scalar (v : ℚ)
  | arr (l : List ℚ)

/-- The broadcast-and-length-check prologue of `scale_SS` for one
scaling argument: a scalar becomes `n * [scalar]`; a list of the wrong
length is an `AssertionError` (`none`). -/
def broadcastArg (a : ScaleArg) (n : ℕ) : Option (List ℚ) :=
  match a with
  | .scalar v => some (List.replicate n v)
  | .arr l => if l.length = n then some l else none

/-- `scale_SS(SSin, input_scal, output_scal, state_scal, byref=True)` as
invoked by `ss.scale`: reads `inputs` and `outputs` through the
properties and `Nstates` from `A.shape[0]`, validates the three scaling
arguments, then runs the three in-place loops, whose net effect on the
entries is `B[i,j] ← B[i,j]·u[j]/x[i]`, `C[i,j] ← C[i,j]/y[i]·x[j]`,
`D[i,j] ← D[i,j]·u[j]/y[i]` over the looped channel ranges; shapes are
unchanged. -/
def scaleObj (s : SSObj) (input_scal output_scal state_scal : ScaleArg) :
    SSObj × Option LssErr :=
  let pin := inputsProp s
  let pout := outputsProp pin.2
  let nin := pin.1
  let nout := pout.1
  let nst := s.A.shape.headD 0
  let s1 := pout.2
  match broadcastArg input_scal nin with
  | none => (s1, some .assertFail)
  | some u =>
    match broadcastArg output_scal nout with
    | none => (s1, some .assertFail)
    | some y =>
      match broadcastArg state_scal nst with
      | none => (s1, some .assertFail)
      | some x =>
        ({ s1 with
           B := ⟨s.B.shape, fun i j =>
                  s.B.ent i j * (if j < nin then u.getD j 1 else 1)
                    / (if i < nst then x.getD i 1 else 1)⟩
           C := ⟨s.C.shape, fun i j =>
                  s.C.ent i j / (if i < nout then y.getD i 1 else 1)
                    * (if j < nst then x.getD j 1 else 1)⟩
           D := ⟨s.D.shape, fun i j =>
                  s.D.ent i j * (if j < nin then u.getD j 1 else 1)
                    / (if i < nout then y.getD i 1 else 1)⟩ }, none)

/-- `ss.project(WT, V)`: `A ← WT·(A·V)`, `B ← WT·B`, `C ← C·V` in that
order (a failing product leaves the earlier assignments in place), then
`self.states = V.shape[1]` through the property setter. -/
def projectObj (s : SSObj) (WT V : NpArr) : SSObj × Option LssErr :=
  match npdot s.A V with
  | none => (s, some .shapeMismatch)
  | some AV =>
    match npdot WT AV with
    | none => (s, some .shapeMismatch)
    | some A2 =>
      match npdot WT s.B with
      | none => ({ s with A := A2 }, some .shapeMismatch)
      | some B2 =>
        match npdot s.C V with
        | none => ({ s with A := A2, B := B2 }, some .shapeMismatch)
        | some C2 =>
          ({ s with A := A2, B := B2, C := C2, cstates := V.shape.getD 1 0 }, none)

/-- `ss.truncate(N)`: asserts `N > 0 and N <= self.states` (Python
short-circuit: the `states` property is only read when `N > 0`), then
keeps the leading `N` states: `A ← A[:N, :N]`, `B ← B[:N, :]`,
`C ← C[:, :N]`; `D` and `dt` are untouched.  numpy basic slicing clamps
at the array bound, hence the `min`. -/
def truncateObj (s : SSObj) (N : ℤ) : SSObj × Option LssErr :=
  if N ≤ 0 then (s, some .assertFail)
  else
    let p := statesProp s
    if (p.1 : ℤ) < N then (p.2, some .assertFail)
    else
      let Nn := N.toNat
      ({ p.2 with
         A := ⟨match s.A.shape with
               | r :: c :: rest => min Nn r :: min Nn c :: rest
               | other => other, s.A.ent⟩
         B := ⟨match s.B.shape with
               | r :: rest => min Nn r :: rest
               | [] => [], s.B.ent⟩
         C := ⟨match s.C.shape with
               | r :: c :: rest => r :: min Nn c :: rest
               | other => other, s.C.ent⟩ }, none)

/-- `remove_inout_channels(sys, retain_channels, where)` as invoked by
the `ss` method: reads the current channel count through the
`inputs`/`outputs` property, builds the 0/1 selection gain with one row
per retained index, and applies `addGain` (transposed for the input
side). -/
def removeIOObj (s : SSObj) (retain : List ℕ) (w : Where) : SSObj × Option LssErr :=
  let retain_m := retain.length
  match w with
  | .inp =>
    let p := inputsProp s
    let m := p.1
    let gain : NpArr := ⟨[retain_m, m], fun i j => if retain.getD i m = j then 1 else 0⟩
    addGainObj p.2 (npT gain) .inp
  | .out =>
    let p := outputsProp s
    let m := p.1
    let gain : NpArr := ⟨[retain_m, m], fun i j => if retain.getD i m = j then 1 else 0⟩
    addGainObj p.2 gain .out

/-- The mutating operations of the `ss` class named by the shape
invariant: `addGain`, `scale`, `project`, `truncate`,
`remove_inout_channels`. -/
inductive SSOp where
  | addGain (K : NpArr) (w : Where)
  | scale (input_scal output_scal state_scal : ScaleArg)
  | project (WT V : NpArr)
  | truncate (N : ℤ)
  | removeInOut (retain : List ℕ) (w : Where)

def applyOp (s : SSObj) : SSOp → SSObj × Option LssErr
  | .addGain K w => addGainObj s K w
  | .scale u y x => scaleObj s u y x
  | .project WT V => projectObj s WT V
  | .truncate N => truncateObj s N
  | .removeInOut r w => removeIOObj s r w

/-- Run a sequence of mutating operations; an operation that raises
leaves the object in its state at the time of the raise (the pair's
first component), as the Python exception would. -/
def applyOps (s : SSObj) (ops : List SSOp) : SSObj :=
  ops.foldl (fun st op => (applyOp st op).1) s

/-! ## join2 / sum_ss operand dispatch

`join2` and `sum_ss` dispatch on the runtime types of their operands:
a plain `np.ndarray` is a static gain, a
`scipy.signal.ltisys.StateSpaceDiscrete` is a dynamic system.  The
scipy container always carries a `dt` and exposes `inputs = B.shape[1]`
and `outputs = C.shape[0]`. -/

/-- A `scipy.signal.ltisys.StateSpaceDiscrete` operand. -/
structure DSS where
  A : NpArr
  B : NpArr
  C : NpArr
  D : NpArr
  dt : ℚ

def dssNx (s : DSS) : ℕ := s.A.shape.headD 0

def dssNin (s : DSS) : ℕ := s.B.shape.getD 1 0

def dssNout (s : DSS) : ℕ := s.C.shape.headD 0

def nrows (a : NpArr) : ℕ := a.shape.headD 0

def ncols (a : NpArr) : ℕ := a.shape.getD 1 0

def npzeros (r c : ℕ) : NpArr := ⟨[r, c], fun _ _ => 0⟩

/-- `np.block` row of two blocks (the well-shaped case the source
builds: both blocks share the row count). -/
def hcat (x y : NpArr) : NpArr :=
  ⟨[nrows x, ncols x + ncols y],
   fun i j => if j < ncols x then x.ent i j else y.ent i (j - ncols x)⟩

/-- `np.block` column of two blocks (both sharing the column count). -/
def vcat (x y : NpArr) : NpArr :=
  ⟨[nrows x + nrows y, ncols x],
   fun i j => if i < nrows x then x.ent i j else y.ent (i - nrows x) j⟩

/-- `np.block([[a, b], [c, d]])` for the well-shaped 2×2 case. -/
def blk2x2 (a b c d : NpArr) : NpArr := vcat (hcat a b) (hcat c d)

/-- numpy `+` on two arrays of identical shape; `none` for the
shape-incompatible case (the source only adds equal-shaped operands). -/
def npadd (x y : NpArr) : Option NpArr :=
  if x.shape = y.shape then some ⟨x.shape, fun i j => x.ent i j + y.ent i j⟩
  else none

/-- An operand of `join2`/`sum_ss`: a static gain (plain ndarray) or a
dynamic discrete state-space system. -/
inductive LinOperand where
  | gain (g : NpArr)
  | dyn (s : DSS)

/-- `join2(SS1, SS2)` from `libss.py`: block-diagonal merge of two
state-spaces or gain matrices, dispatching on the four operand-type
combinations; `{gain, gain}` produces a plain gain, every other
combination a `scipy.signal.StateSpace`; the `{dyn, dyn}` branch
asserts equal time steps (exact comparison).  Inputs/outputs
concatenate; absent couplings are zero blocks. -/
def join2 (S1 S2 : LinOperand) : Except LssErr LinOperand :=
  match S1, S2 with
  | .gain g1, .gain g2 =>
    .ok (.gain (blk2x2 g1 (npzeros (nrows g1) (ncols g2))
                       (npzeros (nrows g2) (ncols g1)) g2))
  | .gain g1, .dyn s2 =>
    .ok (.dyn { A := s2.A
                B := hcat (npzeros (dssNx s2) (ncols g1)) s2.B
                C := vcat (npzeros (nrows g1) (dssNx s2)) s2.C
                D := blk2x2 g1 (npzeros (nrows g1) (dssNin s2))
                            (npzeros (dssNout s2) (ncols g1)) s2.D
                dt := s2.dt })
  | .dyn s1, .gain g2 =>
    .ok (.dyn { A := s1.A
                B := hcat s1.B (npzeros (dssNx s1) (ncols g2))
                C := vcat s1.C (npzeros (nrows g2) (dssNx s1))
                D := blk2x2 s1.D (npzeros (dssNout s1) (ncols g2))
                            (npzeros (nrows g2) (dssNin s1)) g2
                dt := s1.dt })
  | .dyn s1, .dyn s2 =>
    if s1.dt = s2.dt then
      .ok (.dyn { A := blk2x2 s1.A (npzeros (dssNx s1) (dssNx s2))
                          (npzeros (dssNx s2) (dssNx s1)) s2.A
                  B := blk2x2 s1.B (npzeros (dssNx s1) (dssNin s2))
                          (npzeros (dssNx s2) (dssNin s1)) s2.B
                  C := blk2x2 s1.C (npzeros (dssNout s1) (dssNx s2))
                          (npzeros (dssNout s2) (dssNx s1)) s2.C
                  D := blk2x2 s1.D (npzeros (dssNout s1) (dssNin s2))
                          (npzeros (dssNout s2) (dssNin s1)) s2.D
                  dt := s1.dt })
    else .error .assertFail

/-- `sum_ss(SS1, SS2)` from `libss.py`: sum of two systems or gains
sharing input/output counts, dispatching on the four operand-type
combinations.  The `negative` flag of the signature is never used by
the body and is omitted.  In the `{dyn, gain}` branch the source builds
`scsig.StateSpace(A, B, C, D, dt=SS2.dt)` where `SS2` is the plain
ndarray, which has no `dt` attribute: the constructor line raises
`AttributeError` after the sums succeeded, so the branch can never
return a model. -/
def sum_ss (S1 S2 : LinOperand) : Except LssErr LinOperand :=
  match S1, S2 with
  | .gain g1, .gain g2 =>
    match npadd g1 g2 with
    | some g => .ok (.gain g)
    | none => .error .shapeMismatch
  | .gain g1, .dyn s2 =>
    match npadd s2.D g1 with
    | some D2 => .ok (.dyn { s2 with D := D2 })
    | none => .error .shapeMismatch
  | .dyn s1, .gain g2 =>
    match npadd s1.D g2 with
    | some _ => .error .attrMissing
    | none => .error .shapeMismatch
  | .dyn s1, .dyn s2 =>
    if |1 - s1.dt / s2.dt| < 1e-13 then
      match npadd s1.D s2.D with
      | some Dsum =>
        .ok (.dyn { A := blk2x2 s1.A (npzeros (dssNx s1) (dssNx s2))
                        (npzeros (dssNx s2) (dssNx s1)) s2.A
                    B := vcat s1.B s2.B
                    C := hcat s1.C s2.C
                    D := Dsum
                    dt := s1.dt })
      | none => .error .shapeMismatch
    else .error .assertFail

/-! ## Frequency-response norms -/

/-- The H-norm method selector.  The source compares the method string
with the Python `is` operator against the literals `'H2'` and `'Hinf'`
(an identity test that holds for interned literal arguments); the
selector is embedded as the closed enumeration those two literals
induce. -/
inductive HMethod where
  | H2
  | Hinf

/-- `np.trapz(y)` with unit sample spacing: the sum of the averaged
consecutive samples. -/
noncomputable def trapz (g : List ℂ) : ℂ := (List.zipWith (fun a b => (a + b) / 2) g g.tail).sum

/-- numpy's principal complex square root. -/
noncomputable def csqrt (z : ℂ) : ℂ := z ^ ((1 : ℂ) / 2)

/-- `np.linalg.norm(gv, np.inf)` on a 1-d array: the largest sample
magnitude. -/
noncomputable def maxAbs (g : List ℂ) : ℝ := (g.map Complex.abs).foldr max 0

/-- `Hnorm_from_freq_resp(gv, method)` from `libss.py`: the H2 norm is
the square root of the trapezoidal integral of `gv·conj(gv)` with each
sample divided by `len(gv) - 1`; the H-infinity norm is the largest
sample magnitude.  Whichever branch ran, a computed norm whose
imaginary part is non-negligible relative to its real part
(`|imag/real| > 1e-16`) raises `NameError` instead of being
returned. -/
noncomputable def Hnorm_from_freq_resp (gv : List ℂ) (method : HMethod) :
    Except LssErr ℂ :=
  let Gnorm : ℂ :=
    match method with
    | .H2 =>
      let Nk := gv.length
      let gvsq := gv.map fun z => z * (starRingEnd ℂ) z
      csqrt (trapz (gvsq.map fun z => z / ((Nk : ℂ) - 1)))
    | .Hinf => ((maxAbs gv : ℝ) : ℂ)
  if 1e-16 < |Gnorm.im / Gnorm.re| then .error .notReal
  else .ok Gnorm

/-- The H2 value named by the spec sentence, with the normalization as
the code implements it: the square root of the trapezoidal integral of
`gv·conj(gv)` divided by the number of samples minus one. -/
noncomputable def specH2norm (gv : List ℂ) : ℂ :=
  csqrt (trapz (gv.map fun z => z * (starRingEnd ℂ) z) / ((gv.length : ℂ) - 1))

/-- The H2 value exactly as the claim words it: the trapezoidal
integral of `gv·conj(gv)` normalized by the sample count. -/
noncomputable def claimH2norm (gv : List ℂ) : ℂ :=
  csqrt (trapz (gv.map fun z => z * (starRingEnd ℂ) z) / (gv.length : ℂ))

/-! ## Concrete instances used by the witnesses and counterexamples -/

/-- 1-state SISO operand for the `couple` witness. -/
def cw1 : Sss (Fin 1) (Fin 1) (Fin 1) ℚ := ⟨!![0], !![1], !![1], !![1], some 1⟩

def cw2 : Sss (Fin 1) (Fin 1) (Fin 1) ℚ := ⟨!![0], !![1], !![1], !![1], some 1⟩

/-- 1-state SISO system with unit direct term: coupling it to itself
with unit gains makes `L1 = 0`, so the solve in `couple` is singular. -/
def cx1 : Sss (Fin 1) (Fin 1) (Fin 1) ℚ := ⟨!![0], !![1], !![1], !![1], some 1⟩

/-- Discrete system with `dt = 2` and `A = 0` (so `A + I` invertible). -/
def cd3 : Sss (Fin 1) (Fin 1) (Fin 1) ℝ := ⟨!![0], !![1], !![1], !![0], some 2⟩

def cd10 : Sss (Fin 1) (Fin 1) (Fin 1) ℝ := ⟨!![0], !![1], !![1], !![0], some 2⟩

/-- Discrete system with `A = -1`, so `A + I` is singular and the
bilinear transform raises. -/
def cdm : Sss (Fin 1) (Fin 1) (Fin 1) ℝ := ⟨!![-1], !![1], !![1], !![0], some 1⟩

def wA : NpArr := ⟨[1, 1], fun _ _ => 0⟩

def wB : NpArr := ⟨[1, 1], fun _ _ => 1⟩

def wC : NpArr := ⟨[1, 1], fun _ _ => 1⟩

def wD : NpArr := ⟨[1, 1], fun _ _ => 0⟩

/-- A 1-state SISO `ss` object as built by `ss.__init__`. -/
def wObj : SSObj := ⟨wA, wB, wC, wD, some 1, 1, 1, 1⟩

def tA : NpArr := ⟨[2, 2], fun i j => (i : ℚ) + j⟩

def tB : NpArr := ⟨[2, 1], fun i _ => (i : ℚ)⟩

def tC : NpArr := ⟨[1, 2], fun _ j => (j : ℚ)⟩

def tD : NpArr := ⟨[1, 1], fun _ _ => 7⟩

/-- A 2-state `ss` object for the `truncate` witness. -/
def tObj : SSObj := ⟨tA, tB, tC, tD, some 1, 2, 1, 1⟩

/-- A 1×1 static gain operand. -/
def g11 : NpArr := ⟨[1, 1], fun _ _ => 1⟩

/-- A 1-state SISO dynamic operand with `dt = 1/10`. -/
def dssW : DSS := ⟨⟨[1, 1], fun _ _ => 1/2⟩, ⟨[1, 1], fun _ _ => 1⟩,
  ⟨[1, 1], fun _ _ => 1⟩, ⟨[1, 1], fun _ _ => 0⟩, 1/10⟩

/-- SISO discrete systems for the `series` witness. -/
def fw1 : Sss (Fin 1) (Fin 1) (Fin 1) ℂ := ⟨!![0], !![1], !![1], !![2], some 1⟩

def fw2 : Sss (Fin 1) (Fin 1) (Fin 1) ℂ := ⟨!![0], !![1], !![1], !![3], some 1⟩

/-- Pure-gain SISO systems (zero `B` and `C`) whose frequency responses
are the constants `2` and `3`. -/
def pc1 : Sss (Fin 1) (Fin 1) (Fin 1) ℂ := ⟨!![0], !![0], !![0], !![2], some 1⟩

def pc2 : Sss (Fin 1) (Fin 1) (Fin 1) ℂ := ⟨!![0], !![0], !![0], !![3], some 1⟩

/-- The system `parallel pc1 pc2` constructs: 2 inputs, 1 output. -/
def pcP : Sss (Fin 1 ⊕ Fin 1) (Fin 1 ⊕ Fin 1) (Fin 1) ℂ :=
  ⟨fromBlocks pc1.A 0 0 pc2.A, fromBlocks pc1.B 0 0 pc2.B,
   fromColumns pc1.C pc2.C, fromColumns pc1.D pc2.D, some 1⟩

/-! ## Helper lemmas -/

theorem sinv_eq_inv {n : Type} [Fintype n] [DecidableEq n] [Field K]
    (M : Matrix n n K) : sinv M = M⁻¹ := by
  rw [sinv, Matrix.inv_def, Ring.inverse_eq_inv]

theorem solve_eq_inv_mul {n m : Type} [Fintype n] [DecidableEq n] [Field K]
    (X : Matrix n n K) (Y : Matrix n m K) : solve X Y = X⁻¹ * Y := by
  rw [solve, sinv_eq_inv]

theorem fromBlocks_sub {l m n o : Type} [AddGroup K]
    (A : Matrix n l K) (B : Matrix n m K) (C : Matrix o l K) (D : Matrix o m K)
    (A' : Matrix n l K) (B' : Matrix n m K) (C' : Matrix o l K) (D' : Matrix o m K) :
    fromBlocks A B C D - fromBlocks A' B' C' D' =
      fromBlocks (A - A') (B - B') (C - C') (D - D') := by
  rw [sub_eq_add_neg, Matrix.fromBlocks_neg, Matrix.fromBlocks_add]
  simp [sub_eq_add_neg]

theorem fromColumns_add {m n1 n2 : Type} [Add K]
    (A : Matrix m n1 K) (B : Matrix m n2 K) (A' : Matrix m n1 K) (B' : Matrix m n2 K) :
    fromColumns A B + fromColumns A' B' = fromColumns (A + A') (B + B') := by
  ext i (j | j) <;> simp [Matrix.fromColumns]

theorem zOf_one_zero : zOf (some 1) 0 = 1 := by
  simp [zOf]

theorem trapz_map_div (l : List ℂ) (c : ℂ) :
    trapz (l.map fun z => z / c) = trapz l / c := by
  unfold trapz
  induction l with
  | nil => simp
  | cons a t ih =>
    cases t with
    | nil => simp
    | cons b t2 =>
      simp only [List.map_cons, List.tail_cons, List.zipWith_cons_cons,
        List.sum_cons] at ih ⊢
      rw [ih]
      ring

/-! ## Claim theorems -/

/-- C1: for discrete systems with matching sampling intervals and gains
`K12 : inputs1 × outputs2`, `K21 : inputs2 × outputs1` (shapes carried
by the index types) such that `L1 = I - (K12·D2·K21)·D1` and
`L2 = I - (K21·D1·K12)·D2` are invertible, `couple` returns the model
over the concatenated state `[x1; x2]` whose A, B, C, D are the 2×2
block assemblies built from `cpl12 = L1⁻¹·K12`, `cpl21 = L2⁻¹·K21`,
`cpl11 = cpl12·D2·K21`, `cpl22 = cpl21·D1·K12`, with sampling interval
`ss1.dt`.  The embedded `couple` is a pure constructor, so the operand
models are left untouched. -/
theorem couple_feedback_blocks [Field K] [DecidableEq K]
    [Fintype σ1] [DecidableEq σ1] [Fintype σ2] [DecidableEq σ2]
    [Fintype ι1] [DecidableEq ι1] [Fintype ι2] [DecidableEq ι2]
    [Fintype ο1] [DecidableEq ο1] [Fintype ο2] [DecidableEq ο2]
    (s1 : Sss σ1 ι1 ο1 K) (s2 : Sss σ2 ι2 ο2 K)
    (K12 : Matrix ι1 ο2 K) (K21 : Matrix ι2 ο1 K)
    (d1 d2 : ℚ) (h1 : s1.dt = some d1) (h2 : s2.dt = some d2)
    (hdt : |d1 - d2| < 1e-10 * d1)
    (hL1 : (1 - K12 * s2.D * K21 * s1.D).det ≠ 0)
    (hL2 : (1 - K21 * s1.D * K12 * s2.D).det ≠ 0) :
    couple s1 s2 K12 K21 false =
      .ok { A := fromBlocks
                  (s1.A + s1.B * ((1 - K12 * s2.D * K21 * s1.D)⁻¹ * K12 * s2.D * K21) * s1.C)
                  (s1.B * ((1 - K12 * s2.D * K21 * s1.D)⁻¹ * K12) * s2.C)
                  (s2.B * ((1 - K21 * s1.D * K12 * s2.D)⁻¹ * K21) * s1.C)
                  (s2.A + s2.B * ((1 - K21 * s1.D * K12 * s2.D)⁻¹ * K21 * s1.D * K12) * s2.C)
            B := fromBlocks
                  (s1.B + s1.B * ((1 - K12 * s2.D * K21 * s1.D)⁻¹ * K12 * s2.D * K21) * s1.D)
                  (s1.B * ((1 - K12 * s2.D * K21 * s1.D)⁻¹ * K12) * s2.D)
                  (s2.B * ((1 - K21 * s1.D * K12 * s2.D)⁻¹ * K21) * s1.D)
                  (s2.B + s2.B * ((1 - K21 * s1.D * K12 * s2.D)⁻¹ * K21 * s1.D * K12) * s2.D)
            C := fromBlocks
                  (s1.C + s1.D * ((1 - K12 * s2.D * K21 * s1.D)⁻¹ * K12 * s2.D * K21) * s1.C)
                  (s1.D * ((1 - K12 * s2.D * K21 * s1.D)⁻¹ * K12) * s2.C)
                  (s2.D * ((1 - K21 * s1.D * K12 * s2.D)⁻¹ * K21) * s1.C)
                  (s2.C + s2.D * ((1 - K21 * s1.D * K12 * s2.D)⁻¹ * K21 * s1.D * K12) * s2.C)
            D := fromBlocks
                  (s1.D + s1.D * ((1 - K12 * s2.D * K21 * s1.D)⁻¹ * K12 * s2.D * K21) * s1.D)
                  (s1.D * ((1 - K12 * s2.D * K21 * s1.D)⁻¹ * K12) * s2.D)
                  (s2.D * ((1 - K21 * s1.D * K12 * s2.D)⁻¹ * K21) * s1.D)
                  (s2.D + s2.D * ((1 - K21 * s1.D * K12 * s2.D)⁻¹ * K21 * s1.D * K12) * s2.D)
            dt := s1.dt } := by
  obtain ⟨A1, B1, C1, D1, dt1⟩ := s1
  obtain ⟨A2, B2, C2, D2, dt2⟩ := s2
  simp only at h1 h2 hL1 hL2 ⊢
  subst h1; subst h2
  have e1 : (-(K12 * (D2 * K21)) * D1 + 1 : Matrix ι1 ι1 K) = 1 - K12 * D2 * K21 * D1 := by
    rw [← Matrix.mul_assoc K12 D2 K21, Matrix.neg_mul]; abel
  have e2 : (-(K21 * (D1 * K12)) * D2 + 1 : Matrix ι2 ι2 K) = 1 - K21 * D1 * K12 * D2 := by
    rw [← Matrix.mul_assoc K21 D1 K12, Matrix.neg_mul]; abel
  simp only [couple, e1, e2, if_pos hdt, solve_eq_inv_mul]
  rw [if_neg (by push_neg; exact ⟨hL1, hL2⟩)]
  simp only [Bool.false_eq_true, if_false, Except.ok.injEq, Sss.mk.injEq]
  refine ⟨?_, ?_, ?_, ?_, trivial⟩ <;> simp [Matrix.mul_assoc]

/-- Witness for C1: two concrete unit-direct-term SISO systems with
gains 1/2 and 1/3 satisfy the hypotheses and couple successfully. -/
theorem couple_feedback_blocks_witness :
    |(1 : ℚ) - 1| < 1e-10 * 1 ∧
    (1 - !![(1:ℚ)/2] * cw2.D * !![(1:ℚ)/3] * cw1.D).det ≠ 0 ∧
    ∃ out, couple cw1 cw2 !![(1:ℚ)/2] !![(1:ℚ)/3] false = Except.ok out := by
  refine ⟨by norm_num, ?_, ?_⟩
  · norm_num [cw1, cw2, Matrix.det_fin_one, Matrix.mul_apply, Fin.sum_univ_one,
      Matrix.sub_apply, Matrix.one_apply_eq]
  · exact ⟨_, couple_feedback_blocks cw1 cw2 _ _ 1 1 rfl rfl (by norm_num)
      (by norm_num [cw1, cw2, Matrix.det_fin_one, Matrix.mul_apply, Fin.sum_univ_one,
        Matrix.sub_apply, Matrix.one_apply_eq])
      (by norm_num [cw1, cw2, Matrix.det_fin_one, Matrix.mul_apply, Fin.sum_univ_one,
        Matrix.sub_apply, Matrix.one_apply_eq])⟩

/-- C8 (amended): with `out_sparse=True`, `couple` never returns a
coupled model; it raises the "not implemented" `NameError` whenever the
sampling-interval validation passes and the two feedback solves
succeed.  (As literally stated the claim fails: the validation asserts
and the `L1`/`L2` solves run before the `out_sparse` check, so a
singular `L1` raises `LinAlgError` instead — see the
counterexample.) -/
theorem couple_sparse_never_ok [Field K] [DecidableEq K]
    [Fintype σ1] [DecidableEq σ1] [Fintype σ2] [DecidableEq σ2]
    [Fintype ι1] [DecidableEq ι1] [Fintype ι2] [DecidableEq ι2]
    [Fintype ο1] [DecidableEq ο1] [Fintype ο2] [DecidableEq ο2]
    (s1 : Sss σ1 ι1 ο1 K) (s2 : Sss σ2 ι2 ο2 K)
    (K12 : Matrix ι1 ο2 K) (K21 : Matrix ι2 ο1 K) :
    (∀ m, couple s1 s2 K12 K21 true ≠ .ok m) ∧
    (∀ d1 d2, s1.dt = some d1 → s2.dt = some d2 → |d1 - d2| < 1e-10 * d1 →
      (1 - K12 * s2.D * K21 * s1.D).det ≠ 0 →
      (1 - K21 * s1.D * K12 * s2.D).det ≠ 0 →
      couple s1 s2 K12 K21 true = .error .notImplemented) := by
  obtain ⟨A1, B1, C1, D1, dt1⟩ := s1
  obtain ⟨A2, B2, C2, D2, dt2⟩ := s2
  constructor
  · intro m
    cases dt1 <;> cases dt2 <;> simp [couple] <;> split_ifs <;> simp
  · intro d1 d2 h1 h2 hdt hL1 hL2
    simp only at h1 h2 hL1 hL2
    subst h1; subst h2
    have e1 : (-(K12 * (D2 * K21)) * D1 + 1 : Matrix ι1 ι1 K) = 1 - K12 * D2 * K21 * D1 := by
      rw [← Matrix.mul_assoc K12 D2 K21, Matrix.neg_mul]; abel
    have e2 : (-(K21 * (D1 * K12)) * D2 + 1 : Matrix ι2 ι2 K) = 1 - K21 * D1 * K12 * D2 := by
      rw [← Matrix.mul_assoc K21 D1 K12, Matrix.neg_mul]; abel
    simp only [couple, e1, e2, if_pos hdt]
    rw [if_neg (by push_neg; exact ⟨hL1, hL2⟩)]
    simp

/-- Counterexample for C8 as stated: with unit direct terms and unit
gains the left-hand side `L1` is zero, so `couple(..., out_sparse=True)`
raises the singular-solve error, not the "not implemented" one. -/
theorem couple_sparse_counterexample :
    couple cx1 cx1 !![(1:ℚ)] !![(1:ℚ)] true = .error .singular ∧
    LssErr.singular ≠ LssErr.notImplemented := by
  constructor
  · simp only [couple, cx1]
    norm_num [Matrix.det_fin_one, Matrix.mul_apply, Fin.sum_univ_one,
      Matrix.add_apply, Matrix.neg_apply, Matrix.one_apply_eq]
  · decide

/-- Witness for C8 (amended): a concrete sparse-output request on valid
operands raises the "not implemented" error. -/
theorem couple_sparse_witness :
    |(1 : ℚ) - 1| < 1e-10 * 1 ∧
    couple cw1 cw2 !![(1:ℚ)/2] !![(1:ℚ)/3] true = .error .notImplemented := by
  refine ⟨by norm_num, ?_⟩
  exact (couple_sparse_never_ok cw1 cw2 _ _).2 1 1 rfl rfl (by norm_num)
    (by norm_num [cw1, cw2, Matrix.det_fin_one, Matrix.mul_apply, Fin.sum_univ_one,
      Matrix.sub_apply, Matrix.one_apply_eq])
    (by norm_num [cw1, cw2, Matrix.det_fin_one, Matrix.mul_apply, Fin.sum_univ_one,
      Matrix.sub_apply, Matrix.one_apply_eq])

/-- C3: the standalone `disc2cont` fails on a missing `dt`, raises the
numerical `LinAlgError` when `A + I` is singular, and otherwise returns
the continuous-time model (`dt` absent) with
`Ā = (2/dt)·(A-I)·(A+I)⁻¹`, `B̄ = √(4/dt)·(A+I)⁻¹·B`,
`C̄ = √(4/dt)·C·(A+I)⁻¹`, `D̄ = D - C·(A+I)⁻¹·B`. -/
theorem disc2cont_spec [Fintype σ] [DecidableEq σ] (sys : Sss σ ι ο ℝ) :
    (sys.dt = none → disc2cont sys = .error .notDiscrete) ∧
    (sys.dt ≠ none → (sys.A + 1).det = 0 → disc2cont sys = .error .singular) ∧
    (∀ d : ℚ, sys.dt = some d → (sys.A + 1).det ≠ 0 → d ≠ 0 →
      disc2cont sys = .ok
        { A := (2 / (d : ℝ)) • ((sys.A - 1) * (sys.A + 1)⁻¹)
          B := Real.sqrt (4 / (d : ℝ)) • ((sys.A + 1)⁻¹ * sys.B)
          C := Real.sqrt (4 / (d : ℝ)) • (sys.C * (sys.A + 1)⁻¹)
          D := sys.D - sys.C * ((sys.A + 1)⁻¹ * sys.B)
          dt := none }) := by
  obtain ⟨A, B, C, D, dt⟩ := sys
  refine ⟨?_, ?_, ?_⟩
  · intro h
    dsimp only at h
    subst h
    rfl
  · intro hne hdet
    dsimp only at hne hdet
    cases dt with
    | none => exact absurd rfl hne
    | some d0 => simp [disc2cont, hdet]
  · intro d hd hdet hdz
    dsimp only at hd hdet ⊢
    cases dt with
    | none => cases hd
    | some dq =>
      obtain rfl : dq = d := by injection hd
      simp only [disc2cont, sinv_eq_inv]
      rw [if_neg hdet, if_neg hdz]
      simp only [Except.ok.injEq, Sss.mk.injEq]
      have e4 : (2 : ℝ) * (2 / (dq : ℝ)) = 4 / (dq : ℝ) := by ring
      refine ⟨trivial, ?_, ?_, trivial, trivial⟩ <;> rw [e4]

/-- Witness for C3: a concrete discrete system with `dt = 2` and
`A = 0` satisfies the hypotheses and converts successfully. -/
theorem disc2cont_spec_witness :
    (cd3.A + 1).det ≠ 0 ∧ (2 : ℚ) ≠ 0 ∧
    ∃ out, disc2cont cd3 = Except.ok out := by
  have hdet : (cd3.A + 1).det ≠ 0 := by
    norm_num [cd3, Matrix.det_fin_one, Matrix.add_apply, Matrix.one_apply_eq]
  exact ⟨hdet, by norm_num, ⟨_, (disc2cont_spec cd3).2.2 2 rfl hdet (by norm_num)⟩⟩

/-- C10 (amended): the instance method `ss.disc2cont` never modifies
the instance (the conversion's result is discarded by the local
rebinding), and it returns `None` whenever the conversion succeeds —
also when `dt` is absent (or zero), where the truthiness guard skips
the call.  (As literally stated the claim fails for a discrete model
whose `A + I` is singular: the inner conversion raises instead of
returning `None` — see the counterexample.) -/
theorem ssMethod_disc2cont_frame [Fintype σ] [DecidableEq σ] (s : Sss σ ι ο ℝ) :
    (ssMethodDisc2cont s).2 = s ∧
    (s.dt = none → (ssMethodDisc2cont s).1 = .ok ()) ∧
    (∀ d : ℚ, s.dt = some d → d ≠ 0 → (s.A + 1).det ≠ 0 →
      (ssMethodDisc2cont s).1 = .ok ()) := by
  refine ⟨?_, ?_, ?_⟩
  · obtain ⟨A, B, C, D, dt⟩ := s
    cases dt with
    | none => rfl
    | some d =>
      by_cases hdz : d = 0
      · simp [ssMethodDisc2cont, hdz]
      · cases hdc : disc2cont (⟨A, B, C, D, some d⟩ : Sss σ ι ο ℝ) <;>
          simp [ssMethodDisc2cont, hdz, hdc]
  · intro h
    obtain ⟨A, B, C, D, dt⟩ := s
    dsimp only at h
    subst h
    rfl
  · intro d hd hdz hdet
    have hok := (disc2cont_spec s).2.2 d hd hdet hdz
    obtain ⟨A, B, C, D, dt⟩ := s
    dsimp only at hd
    subst hd
    simp [ssMethodDisc2cont, hdz, hok]

/-- Counterexample for C10 as stated: on a discrete model with
`A = -1` the inner bilinear transform hits a singular `A + I`, so the
method raises the singular-solve error instead of returning `None`
(the instance is still unchanged, as the amended claim records). -/
theorem ssMethod_disc2cont_counterexample :
    (ssMethodDisc2cont cdm).1 = .error .singular ∧
    (ssMethodDisc2cont cdm).1 ≠ .ok () := by
  have hdc : disc2cont (⟨!![-1], !![1], !![1], !![0], some 1⟩ :
      Sss (Fin 1) (Fin 1) (Fin 1) ℝ) = .error .singular := by
    simp [disc2cont]
  have h1 : (ssMethodDisc2cont cdm).1 = .error .singular := by
    simp [ssMethodDisc2cont, cdm, hdc]
  exact ⟨h1, by rw [h1]; simp⟩

/-- Witness for C10 (amended): a concrete well-conditioned discrete
model, where the method returns `None`. -/
theorem ssMethod_disc2cont_frame_witness :
    (cd10.A + 1).det ≠ 0 ∧ (ssMethodDisc2cont cd10).1 = .ok () := by
  have hdet : (cd10.A + 1).det ≠ 0 := by
    norm_num [cd10, Matrix.det_fin_one, Matrix.add_apply, Matrix.one_apply_eq]
  exact ⟨hdet, (ssMethod_disc2cont_frame cd10).2.2 2 rfl (by norm_num) hdet⟩

/-- C2: for any constructed `ss` object and any sequence of the
mutating operations (`addGain`, `scale`, `project`, `truncate`,
`remove_inout_channels`), reading `states` returns `A.shape[0]`,
`outputs` returns `C.shape[0]` and `inputs` returns `B.shape[1]` (or 1
for a one-dimensional `B`); the reads only rewrite the private backing
stores, never the matrices, so the read values are independent of the
order in which the properties are read. -/
theorem ss_shape_props (A B C D : NpArr) (dt : Option ℚ) (s0 : SSObj)
    (hinit : mkSS A B C D dt = .ok s0) (ops : List SSOp) :
    (statesProp (applyOps s0 ops)).1 = (applyOps s0 ops).A.shape.headD 0 ∧
    (outputsProp (applyOps s0 ops)).1 = (applyOps s0 ops).C.shape.headD 0 ∧
    (inputsProp (applyOps s0 ops)).1 =
      (if (applyOps s0 ops).B.shape.length = 1 then 1
       else (applyOps s0 ops).B.shape.getD 1 0) ∧
    ((statesProp (applyOps s0 ops)).2.A = (applyOps s0 ops).A ∧
     (statesProp (applyOps s0 ops)).2.B = (applyOps s0 ops).B ∧
     (statesProp (applyOps s0 ops)).2.C = (applyOps s0 ops).C ∧
     (statesProp (applyOps s0 ops)).2.D = (applyOps s0 ops).D ∧
     (statesProp (applyOps s0 ops)).2.dt = (applyOps s0 ops).dt) ∧
    ((inputsProp (applyOps s0 ops)).2.A = (applyOps s0 ops).A ∧
     (inputsProp (applyOps s0 ops)).2.B = (applyOps s0 ops).B ∧
     (inputsProp (applyOps s0 ops)).2.C = (applyOps s0 ops).C ∧
     (inputsProp (applyOps s0 ops)).2.D = (applyOps s0 ops).D ∧
     (inputsProp (applyOps s0 ops)).2.dt = (applyOps s0 ops).dt) ∧
    ((outputsProp (applyOps s0 ops)).2.A = (applyOps s0 ops).A ∧
     (outputsProp (applyOps s0 ops)).2.B = (applyOps s0 ops).B ∧
     (outputsProp (applyOps s0 ops)).2.C = (applyOps s0 ops).C ∧
     (outputsProp (applyOps s0 ops)).2.D = (applyOps s0 ops).D ∧
     (outputsProp (applyOps s0 ops)).2.dt = (applyOps s0 ops).dt) := by
  refine ⟨rfl, rfl, ?_, ⟨rfl, rfl, rfl, rfl, rfl⟩, ?_, ⟨rfl, rfl, rfl, rfl, rfl⟩⟩
  · by_cases h : (applyOps s0 ops).B.shape.length = 1 <;> simp [inputsProp, h]
  · by_cases h : (applyOps s0 ops).B.shape.length = 1 <;> simp [inputsProp, h]

/-- Witness for C2: a concrete 1-state SISO construction followed by a
truncation, after which the `states` read still returns the current
`A.shape[0]`. -/
theorem ss_shape_props_witness :
    mkSS wA wB wC wD (some 1) = .ok wObj ∧
    (statesProp (applyOps wObj [SSOp.truncate 1])).1 =
      (applyOps wObj [SSOp.truncate 1]).A.shape.headD 0 := by
  refine ⟨rfl, ?_⟩
  exact (ss_shape_props wA wB wC wD (some 1) wObj rfl [SSOp.truncate 1]).1

/-- C9: `truncate(N)` raises (`AssertionError`) whenever `N < 1` or
`N > states`; for `1 ≤ N ≤ states` it succeeds, the new `A` is exactly
the leading N×N submatrix of the previous `A` (same entries, truncated
shape), `B` keeps its leading N rows, `C` its leading N columns, and
`D` and `dt` are untouched. -/
theorem truncate_spec (s : SSObj) (n mB p : ℕ)
    (hA : s.A.shape = [n, n]) (hB : s.B.shape = [n, mB]) (hC : s.C.shape = [p, n])
    (N : ℤ) :
    ((N < 1 ∨ (n : ℤ) < N) → (truncateObj s N).2 = some .assertFail) ∧
    (1 ≤ N → N ≤ (n : ℤ) →
      (truncateObj s N).2 = none ∧
      (truncateObj s N).1.A = ⟨[N.toNat, N.toNat], s.A.ent⟩ ∧
      (truncateObj s N).1.B = ⟨[N.toNat, mB], s.B.ent⟩ ∧
      (truncateObj s N).1.C = ⟨[p, N.toNat], s.C.ent⟩ ∧
      (truncateObj s N).1.D = s.D ∧
      (truncateObj s N).1.dt = s.dt) := by
  have hhead : s.A.shape.headD 0 = n := by rw [hA]; rfl
  constructor
  · intro h
    by_cases h0 : N ≤ 0
    · simp [truncateObj, h0]
    · have hlt : ((statesProp s).1 : ℤ) < N := by
        simp only [statesProp, hhead]
        omega
      simp [truncateObj, h0, hlt]
  · intro h1 h2
    have h0 : ¬ N ≤ 0 := by omega
    have hlt : ¬ (((statesProp s).1 : ℤ) < N) := by
      simp only [statesProp, hhead]
      omega
    have hmin : min N.toNat n = N.toNat := by omega
    simp only [truncateObj, if_neg h0, if_neg hlt]
    refine ⟨trivial, ?_, ?_, ?_, rfl, rfl⟩
    · rw [hA]; simp [hmin]
    · rw [hB]; simp [hmin]
    · rw [hC]; simp [hmin]

/-- Witness for C9: a concrete 2-state object truncated to 1 state
succeeds with the leading 1×1 block of `A`; truncating to 3 states
raises. -/
theorem truncate_spec_witness :
    ((truncateObj tObj 1).2 = none ∧
     (truncateObj tObj 1).1.A = ⟨[1, 1], tObj.A.ent⟩) ∧
    (truncateObj tObj 3).2 = some .assertFail := by
  refine ⟨⟨?_, ?_⟩, ?_⟩
  · exact ((truncate_spec tObj 2 1 1 rfl rfl rfl 1).2 (by norm_num) (by norm_num)).1
  · exact ((truncate_spec tObj 2 1 1 rfl rfl rfl 1).2 (by norm_num) (by norm_num)).2.1
  · exact (truncate_spec tObj 2 1 1 rfl rfl rfl 3).1 (by norm_num)

/-- C6 / code bug: `join2` and the other three `sum_ss` operand
combinations behave as claimed on well-shaped operands, but the
`{dynamic, gain}` branch of `sum_ss` reads `dt` off the plain gain
matrix (`scsig.StateSpace(..., dt=SS2.dt)` with `SS2` the ndarray) and
raises `AttributeError` instead of returning the summed model. -/
theorem sum_ss_dyn_gain_bug :
    sum_ss (.dyn dssW) (.gain g11) = .error .attrMissing ∧
    (∃ r, sum_ss (.gain g11) (.gain g11) = .ok (.gain r)) ∧
    (∃ r, sum_ss (.gain g11) (.dyn dssW) = .ok (.dyn r)) ∧
    (∃ r, sum_ss (.dyn dssW) (.dyn dssW) = .ok (.dyn r)) ∧
    (∃ r, join2 (.dyn dssW) (.gain g11) = .ok (.dyn r)) := by
  have hdyn : sum_ss (.dyn dssW) (.dyn dssW) =
      .ok (.dyn { A := blk2x2 dssW.A (npzeros (dssNx dssW) (dssNx dssW))
                      (npzeros (dssNx dssW) (dssNx dssW)) dssW.A
                  B := vcat dssW.B dssW.B
                  C := hcat dssW.C dssW.C
                  D := ⟨dssW.D.shape, fun i j => dssW.D.ent i j + dssW.D.ent i j⟩
                  dt := dssW.dt }) := by
    simp only [sum_ss]
    rw [if_pos (by norm_num [dssW])]
    rfl
  exact ⟨rfl, ⟨_, rfl⟩, ⟨_, rfl⟩, ⟨_, hdyn⟩, ⟨_, rfl⟩⟩

/-- C7 (amended): for every sample vector, the H2 branch of
`Hnorm_from_freq_resp` computes the square root of the trapezoidal
integral of `g·conj(g)` divided by the number of samples minus one
(not by the sample count as the claim words it — see the
counterexample), raising whenever the computed norm's imaginary part is
non-negligible relative to its real part; the H-infinity branch returns
the largest sample magnitude. -/
theorem Hnorm_from_freq_resp_spec (gv : List ℂ) :
    Hnorm_from_freq_resp gv .H2 =
      (if 1e-16 < |(specH2norm gv).im / (specH2norm gv).re| then .error .notReal
       else .ok (specH2norm gv)) ∧
    Hnorm_from_freq_resp gv .Hinf = .ok ((maxAbs gv : ℝ) : ℂ) := by
  constructor
  · have key : trapz ((gv.map fun z => z * (starRingEnd ℂ) z).map
        fun z => z / ((gv.length : ℂ) - 1))
        = trapz (gv.map fun z => z * (starRingEnd ℂ) z) / ((gv.length : ℂ) - 1) :=
      trapz_map_div _ _
    simp only [Hnorm_from_freq_resp, specH2norm, key]
  · simp only [Hnorm_from_freq_resp]
    rw [if_neg (by simp; norm_num)]

/-- Counterexample for C7 as stated: on the two-sample response
`[1, 1]` the code returns 1 (trapezoidal integral 1 divided by
`Nk - 1 = 1`), while the claim's value — normalized by the sample
count 2 — is `√(1/2) ≠ 1`. -/
theorem Hnorm_counterexample :
    Hnorm_from_freq_resp [1, 1] .H2 = .ok 1 ∧ claimH2norm [1, 1] ≠ 1 := by
  constructor
  · simp [Hnorm_from_freq_resp, csqrt]
    norm_num [trapz, csqrt]
  · have hv : claimH2norm [1, 1] = (((1/2 : ℝ) ^ (1/2 : ℝ) : ℝ) : ℂ) := by
      have ht : trapz ([1, 1].map fun z => z * (starRingEnd ℂ) z) /
          ((([1, 1] : List ℂ).length : ℂ)) = ((1/2 : ℝ) : ℂ) := by
        norm_num [trapz]
      have he : ((1 : ℂ) / 2) = (((1/2 : ℝ) : ℝ) : ℂ) := by norm_num
      rw [claimH2norm, ht, csqrt, he, Complex.ofReal_cpow (by norm_num)]
    rw [hv]
    intro hcon
    rw [show (1 : ℂ) = ((1 : ℝ) : ℂ) by norm_num] at hcon
    have h1 := Complex.ofReal_inj.mp hcon
    have hlt : (1/2 : ℝ) ^ (1/2 : ℝ) < 1 :=
      Real.rpow_lt_one (by norm_num) (by norm_num) (by norm_num)
    linarith

/-- C4: for discrete systems with the same sampling interval, whenever
the two per-frequency resolvent solves succeed, the frequency response
of `series(ss1, ss2)` equals `freqresp(ss2) · freqresp(ss1)` (exact
equality, hence within any tolerance). -/
theorem series_freqresp
    [Fintype σ1] [DecidableEq σ1] [Fintype σ2] [DecidableEq σ2]
    [Fintype ι] [Fintype ο1] [Fintype ο2]
    (s1 : Sss σ1 ι ο1 ℂ) (s2 : Sss σ2 ο1 ο2 ℂ) (T : ℚ) (w : ℝ)
    (h1 : s1.dt = some T) (h2 : s2.dt = some T)
    (hz1 : (zOf (some T) w • (1 : Matrix σ1 σ1 ℂ) - s1.A).det ≠ 0)
    (hz2 : (zOf (some T) w • (1 : Matrix σ2 σ2 ℂ) - s2.A).det ≠ 0) :
    ∃ stot, series s1 s2 = .ok stot ∧
      freqresp stot w = freqresp s2 w * freqresp s1 w := by
  have hdt : s1.dt = s2.dt := by rw [h1, h2]
  refine ⟨⟨fromBlocks s1.A 0 (s2.B * s1.C) s2.A, fromRows s1.B (s2.B * s1.D),
      fromColumns (s2.D * s1.C) s2.C, s2.D * s1.D, s1.dt⟩, ?_, ?_⟩
  · simp only [series, if_pos hdt]
  set z : ℂ := zOf (some T) w with hz
  set M1 : Matrix σ1 σ1 ℂ := z • (1 : Matrix σ1 σ1 ℂ) - s1.A with hM1
  set M2 : Matrix σ2 σ2 ℂ := z • (1 : Matrix σ2 σ2 ℂ) - s2.A with hM2
  have hu1 : IsUnit M1.det := isUnit_iff_ne_zero.mpr hz1
  have hu2 : IsUnit M2.det := isUnit_iff_ne_zero.mpr hz2
  have hblock : z • (1 : Matrix (σ1 ⊕ σ2) (σ1 ⊕ σ2) ℂ) -
      fromBlocks s1.A 0 (s2.B * s1.C) s2.A =
      fromBlocks M1 0 (-(s2.B * s1.C)) M2 := by
    rw [← Matrix.fromBlocks_one, Matrix.fromBlocks_smul, fromBlocks_sub]
    simp [hM1, hM2]
  have hinv : (fromBlocks M1 0 (-(s2.B * s1.C)) M2)⁻¹ =
      fromBlocks M1⁻¹ 0 (M2⁻¹ * (s2.B * s1.C) * M1⁻¹) M2⁻¹ := by
    apply Matrix.inv_eq_right_inv
    rw [Matrix.fromBlocks_multiply]
    have e21 : -(s2.B * s1.C) * M1⁻¹ + M2 * (M2⁻¹ * (s2.B * s1.C) * M1⁻¹) = 0 := by
      rw [← Matrix.mul_assoc M2, ← Matrix.mul_assoc M2,
        Matrix.mul_nonsing_inv _ hu2, Matrix.one_mul, Matrix.neg_mul]
      exact neg_add_cancel _
    rw [Matrix.mul_nonsing_inv _ hu1, Matrix.mul_nonsing_inv _ hu2, e21]
    simp [Matrix.fromBlocks_one]
  dsimp only [freqresp]
  rw [h1, h2, solve_eq_inv_mul, solve_eq_inv_mul, solve_eq_inv_mul, ← hz,
    hblock, hinv, Matrix.fromBlocks_mul_fromRows, Matrix.fromColumns_mul_fromRows,
    ← hM1, ← hM2]
  simp only [Matrix.zero_mul, add_zero, Matrix.mul_add, Matrix.add_mul,
    Matrix.mul_assoc]
  abel

/-- Witness for C4: two concrete SISO systems in series at frequency
zero. -/
theorem series_freqresp_witness :
    (zOf (some 1) 0 • (1 : Matrix (Fin 1) (Fin 1) ℂ) - fw1.A).det ≠ 0 ∧
    ∃ stot, series fw1 fw2 = .ok stot ∧
      freqresp stot 0 = freqresp fw2 0 * freqresp fw1 0 := by
  have hz1 : (zOf (some 1) 0 • (1 : Matrix (Fin 1) (Fin 1) ℂ) - fw1.A).det ≠ 0 := by
    rw [zOf_one_zero]
    norm_num [fw1, Matrix.det_fin_one, Matrix.smul_apply, Matrix.sub_apply,
      Matrix.one_apply_eq]
  have hz2 : (zOf (some 1) 0 • (1 : Matrix (Fin 1) (Fin 1) ℂ) - fw2.A).det ≠ 0 := by
    rw [zOf_one_zero]
    norm_num [fw2, Matrix.det_fin_one, Matrix.smul_apply, Matrix.sub_apply,
      Matrix.one_apply_eq]
  exact ⟨hz1, series_freqresp fw1 fw2 1 0 rfl rfl hz1 hz2⟩

/-- C5 (amended): the frequency response of `parallel(ss1, ss2)` is the
horizontal concatenation of the two responses — its restriction to
`ss1`'s input columns is `freqresp(ss1, ω)` and to `ss2`'s input
columns is `freqresp(ss2, ω)` (so the response to a shared input
duplicated across both groups is the sum).  As the claim states it —
the response equal to the matrix sum `freqresp(ss1) + freqresp(ss2)` —
it fails, because `parallel` concatenates the inputs block-diagonally;
see the counterexample. -/
theorem parallel_freqresp
    [Fintype σ1] [DecidableEq σ1] [Fintype σ2] [DecidableEq σ2]
    [Fintype ι1] [Fintype ι2] [Fintype ο]
    (s1 : Sss σ1 ι1 ο ℂ) (s2 : Sss σ2 ι2 ο ℂ) (T : ℚ) (w : ℝ)
    (h1 : s1.dt = some T) (h2 : s2.dt = some T)
    (hz1 : (zOf (some T) w • (1 : Matrix σ1 σ1 ℂ) - s1.A).det ≠ 0)
    (hz2 : (zOf (some T) w • (1 : Matrix σ2 σ2 ℂ) - s2.A).det ≠ 0) :
    ∃ P, parallel s1 s2 = .ok P ∧
      freqresp P w = fromColumns (freqresp s1 w) (freqresp s2 w) := by
  have hdt : s1.dt = s2.dt := by rw [h1, h2]
  refine ⟨⟨fromBlocks s1.A 0 0 s2.A, fromBlocks s1.B 0 0 s2.B,
      fromColumns s1.C s2.C, fromColumns s1.D s2.D, s1.dt⟩, ?_, ?_⟩
  · simp only [parallel, if_pos hdt]
  set z : ℂ := zOf (some T) w with hz
  set M1 : Matrix σ1 σ1 ℂ := z • (1 : Matrix σ1 σ1 ℂ) - s1.A with hM1
  set M2 : Matrix σ2 σ2 ℂ := z • (1 : Matrix σ2 σ2 ℂ) - s2.A with hM2
  have hu1 : IsUnit M1.det := isUnit_iff_ne_zero.mpr hz1
  have hu2 : IsUnit M2.det := isUnit_iff_ne_zero.mpr hz2
  have hblock : z • (1 : Matrix (σ1 ⊕ σ2) (σ1 ⊕ σ2) ℂ) -
      fromBlocks s1.A 0 0 s2.A = fromBlocks M1 0 0 M2 := by
    rw [← Matrix.fromBlocks_one, Matrix.fromBlocks_smul, fromBlocks_sub]
    simp [hM1, hM2]
  have hinv : (fromBlocks M1 0 0 M2)⁻¹ = fromBlocks M1⁻¹ 0 0 M2⁻¹ := by
    apply Matrix.inv_eq_right_inv
    rw [Matrix.fromBlocks_multiply]
    rw [Matrix.mul_nonsing_inv _ hu1, Matrix.mul_nonsing_inv _ hu2]
    simp [Matrix.fromBlocks_one]
  dsimp only [freqresp]
  rw [h1, h2, solve_eq_inv_mul, solve_eq_inv_mul, solve_eq_inv_mul, ← hz,
    hblock, hinv, Matrix.fromBlocks_multiply, Matrix.fromColumns_mul_fromBlocks,
    fromColumns_add, ← hM1, ← hM2]
  simp [Matrix.mul_assoc]

/-- Counterexample for C5 as stated: two pure-gain SISO systems with
responses 2 and 3; the parallel composite has two inputs, and its
response at the first input column is 2, not the sum 5. -/
theorem parallel_counterexample :
    parallel pc1 pc2 = .ok pcP ∧
    freqresp pcP 0 0 (Sum.inl 0) = 2 ∧
    (freqresp pc1 0 + freqresp pc2 0) 0 0 = 5 ∧
    (2 : ℂ) ≠ 5 := by
  have h0 : (!![0] : Matrix (Fin 1) (Fin 1) ℂ) = 0 := by
    ext i j
    fin_cases i <;> fin_cases j <;> rfl
  have hCP : pcP.C = 0 := by
    ext i (j | j) <;> fin_cases i <;> fin_cases j <;> rfl
  refine ⟨?_, ?_, ?_, by norm_num⟩
  · simp only [parallel]
    rw [if_pos (show pc1.dt = pc2.dt from rfl)]
    rfl
  · rw [freqresp, hCP]
    simp [pcP, pc1, pc2, Matrix.add_apply, Matrix.fromColumns_apply_inl]
  · rw [freqresp, freqresp, show pc1.C = 0 from h0, show pc2.C = 0 from h0]
    simp [pc1, pc2, Matrix.add_apply]
    norm_num

/-- Witness for C5 (amended): the same concrete systems at frequency
zero satisfy the hypotheses, and the parallel response is the
concatenation of the individual responses. -/
theorem parallel_freqresp_witness :
    (zOf (some 1) 0 • (1 : Matrix (Fin 1) (Fin 1) ℂ) - pc1.A).det ≠ 0 ∧
    ∃ P, parallel pc1 pc2 = .ok P ∧
      freqresp P 0 = fromColumns (freqresp pc1 0) (freqresp pc2 0) := by
  have hz1 : (zOf (some 1) 0 • (1 : Matrix (Fin 1) (Fin 1) ℂ) - pc1.A).det ≠ 0 := by
    rw [zOf_one_zero]
    norm_num [pc1, Matrix.det_fin_one, Matrix.smul_apply, Matrix.sub_apply,
      Matrix.one_apply_eq]
  have hz2 : (zOf (some 1) 0 • (1 : Matrix (Fin 1) (Fin 1) ℂ) - pc2.A).det ≠ 0 := by
    rw [zOf_one_zero]
    norm_num [pc2, Matrix.det_fin_one, Matrix.smul_apply, Matrix.sub_apply,
      Matrix.one_apply_eq]
  exact ⟨hz1, parallel_freqresp pc1 pc2 1 0 rfl rfl hz1 hz2⟩
